import Mathlib

/-!
Shallow embedding of the replication oplog writer
(`src/mongo/db/repl/oplog_writer_impl.cpp`).

The writer pulls batches of oplog records from a write buffer, durably
inserts them into the oplog collection (and, when serverless change
collections are active, into the change collection), registers oplog
visibility with the storage engine, advances the node's last-written
optime, triggers the journal flusher on durable storage, and forwards the
batch to the applier's buffer.

The embedding is trace-based: every outwardly observable action of the
writer (metric increments, parses, storage-transaction begins/commits,
observer callbacks, visibility registration, position advance, journal
trigger, apply-buffer push, drain-mode signals) is an `Event`, and each
operation returns the list of events it performs together with its result.
Machine structure (locks, operation contexts, admission priority) that has
no bearing on the verified claims is not modelled.
-/

namespace OplogWriter

/-- A replication optime: a logical position in the oplog, made of a
timestamp and a term, compared lexicographically by timestamp then term. -/
structure OpTime where
  ts : Nat
  term : Int
deriving DecidableEq, Repr

/-- Strict order on optimes: by timestamp, then by term. -/
def OpTime.lt (a b : OpTime) : Prop :=
  a.ts < b.ts ∨ (a.ts = b.ts ∧ a.term < b.term)

/-- Reflexive order on optimes: by timestamp, then by term. -/
def OpTime.le (a b : OpTime) : Prop :=
  a.ts < b.ts ∨ (a.ts = b.ts ∧ a.term ≤ b.term)

instance (a b : OpTime) : Decidable (OpTime.lt a b) :=
  inferInstanceAs (Decidable (_ ∨ _))

instance (a b : OpTime) : Decidable (OpTime.le a b) :=
  inferInstanceAs (Decidable (_ ∨ _))

/-- An optime together with the wall-clock time of the operation. -/
structure OpTimeAndWallTime where
  opTime : OpTime
  wall : Nat
deriving DecidableEq, Repr

/-- An oplog record (a BSON oplog entry, abstracted): it carries the
optime and wall time that `OpTime::parseFromOplogEntry` and
`OpTimeAndWallTime::parseOpTimeAndWallTimeFromOplogEntry` extract from it.
Malformed records (parse failures) are fatal upstream contract violations
and are outside the verified claims, so parsing is total here. -/
structure Record where
  opTime : OpTime
  wall : Nat
deriving DecidableEq, Repr

/-- Mirrors `OpTime::parseFromOplogEntry` on an abstracted record. -/
def parseFromOplogEntry (r : Record) : OpTime := r.opTime

/-- Mirrors `OpTimeAndWallTime::parseOpTimeAndWallTimeFromOplogEntry`. -/
def parseOpTimeAndWallTimeFromOplogEntry (r : Record) : OpTimeAndWallTime :=
  ⟨r.opTime, r.wall⟩

/-- Mirrors `InsertStatement{op, opTime.getTimestamp(), opTime.getTerm()}`:
the record paired with its extracted oplog slot. -/
structure InsertStatement where
  doc : Record
  oplogSlot : OpTime
deriving DecidableEq, Repr

/-- The error codes distinguished by this slice of the code. -/
inductive ErrorCode where
  | NamespaceNotFound
  | InterruptedAtShutdown
  | WriteConflict
  | OtherError
deriving DecidableEq, Repr

/-- Observable actions of the writer, in program order. -/
inductive Event where
  | incrementBatchSize (n : Nat)
  | timerStart
  | timerStop (millis : Nat)
  | parseRecord (opTime : OpTime)
  | oplogInsertBegin (n : Nat)
  | oplogCommit (n : Nat)
  | onWriteOplogCollection (n : Nat)
  | changeCollInsertBegin (n : Nat)
  | changeCollCommit (n : Nat)
  | onWriteChangeCollection (n : Nat)
  | oplogDiskLocRegister (ts : Nat) (orderedCommit : Bool)
  | setLastWrittenForward (t : OpTimeAndWallTime)
  | triggerJournalFlush
  | applyBufferPush (n : Nat)
  | enterDrainMode
  | exitDrainMode
deriving DecidableEq, Repr

/-- Mirrors `insertDocsToOplogCollection`: one write unit of work against
the oplog collection.  `collExists` abstracts `autoOplog.getCollection()`
being non-null and `insertStatus` the outcome of
`collection_internal::insertDocuments`.  The commit event is emitted only
when the unit of work reaches `wuow.commit()`. -/
def insertDocsToOplogCollection (collExists : Bool) (insertStatus : Option ErrorCode)
    (n : Nat) : List Event × Option ErrorCode :=
  if !collExists then
    ([], some ErrorCode.NamespaceNotFound)
  else
    match insertStatus with
    | some e => ([Event.oplogInsertBegin n], some e)
    | none => ([Event.oplogInsertBegin n, Event.oplogCommit n], none)

/-- Mirrors `insertDocsToChangeCollection`: one write unit of work against
the change collection, with `writeStatus` the outcome of `writer.write()`. -/
def insertDocsToChangeCollection (writeStatus : Option ErrorCode)
    (n : Nat) : List Event × Option ErrorCode :=
  match writeStatus with
  | some e => ([Event.changeCollInsertBegin n], some e)
  | none => ([Event.changeCollInsertBegin n, Event.changeCollCommit n], none)

/-- Retryable-error classifier: transient write conflicts are retried,
everything else is surfaced. -/
def isRetryableError (e : ErrorCode) : Bool :=
  match e with
  | ErrorCode.WriteConflict => true
  | _ => false

/-- Modelled from the spec: `storage_helpers::insertBatchAndHandleRetry`
(not part of this source slice) runs the supplied unit-of-work closure and
transparently retries it while it fails with a retryable condition, so the
caller sees only the final success or the first non-retryable failure.
The unbounded retry loop is modelled on a finite, non-empty list of
attempt environments; the trailing attempt's outcome stands when the list
is exhausted. -/
def insertBatchAndHandleRetry (f : α → List Event × Option ErrorCode) :
    α → List α → List Event × Option ErrorCode
  | a, [] => f a
  | a, b :: bs =>
    match f a with
    | (evs, none) => (evs, none)
    | (evs, some e) =>
      if isRetryableError e then
        let r2 := insertBatchAndHandleRetry f b bs
        (evs ++ r2.1, r2.2)
      else (evs, some e)

/-- Result of one complete `writeOplogBatch` call.  `fatalAssert` models a
`fassert`/`invariant` firing, which halts the process. -/
inductive WbResult where
  | ok (lastOpTime : OpTime)
  | shutdownStop
  | fatalAssert (id : Nat)
deriving DecidableEq, Repr

/-- Outcome of one `_writeOplogBatchImpl` sink call, before the batch-level
result is assembled. -/
inductive SinkOutcome where
  | ok
  | shutdownStop
  | fatalAssert (id : Nat)
deriving DecidableEq, Repr

/-- Mirrors the tail of `_writeOplogBatchImpl`: `fassert(8352101, status)`
halts the process on a non-OK status.  The distinguished
`InterruptedAtShutdown` condition is modelled from the spec as propagating
to the caller as a silent-stop signal (the interruption machinery that
carries it past the assert lives outside this source slice). -/
def writeOplogBatchImplStatus : Option ErrorCode → SinkOutcome
  | none => SinkOutcome.ok
  | some ErrorCode.InterruptedAtShutdown => SinkOutcome.shutdownStop
  | some _ => SinkOutcome.fatalAssert 8352101

/-- Mirrors `_writeOplogBatchImpl`: run the sink's unit of work under the
retry helper and classify the final status. -/
def writeOplogBatchImpl (f : α → List Event × Option ErrorCode) (a : α) (rest : List α) :
    List Event × SinkOutcome :=
  let r := insertBatchAndHandleRetry f a rest
  (r.1, writeOplogBatchImplStatus r.2)

/-- Environment of one attempt of the oplog-collection write: whether the
oplog collection exists and the storage outcome of the insert. -/
structure OplogAttempt where
  collExists : Bool
  insertStatus : Option ErrorCode
deriving DecidableEq, Repr

/-- The oplog-collection leg of `writeOplogBatch` (source lines 219-224):
skipped during startup recovery, otherwise the sink write followed by the
`onWriteOplogCollection` observer notification after a successful commit. -/
def oplogCollLeg (skipWritesToOplogColl : Bool) (n : Nat)
    (oa : OplogAttempt) (oas : List OplogAttempt) : List Event × SinkOutcome :=
  if skipWritesToOplogColl then ([], SinkOutcome.ok)
  else
    let r := writeOplogBatchImpl
      (fun a => insertDocsToOplogCollection a.collExists a.insertStatus n) oa oas
    match r.2 with
    | SinkOutcome.ok => (r.1 ++ [Event.onWriteOplogCollection n], SinkOutcome.ok)
    | out => (r.1, out)

/-- The change-collection leg of `writeOplogBatch` (source lines 226-231):
performed only when change collections mode is active, as a separate
storage transaction, followed by the `onWriteChangeCollection` observer
notification after a successful commit. -/
def changeCollLeg (writeChangeCollection : Bool) (n : Nat)
    (ca : Option ErrorCode) (cas : List (Option ErrorCode)) : List Event × SinkOutcome :=
  if writeChangeCollection then
    let r := writeOplogBatchImpl (fun st => insertDocsToChangeCollection st n) ca cas
    match r.2 with
    | SinkOutcome.ok => (r.1 ++ [Event.onWriteChangeCollection n], SinkOutcome.ok)
    | out => (r.1, out)
  else ([], SinkOutcome.ok)

/-- The id used to model `invariant(!ops.empty())` at the top of
`writeOplogBatch` firing. -/
def invariantNonEmptyBatchId : Nat := 8352104

/-- The events `writeOplogBatch` performs before either collection write:
the batch-size metric increment, the batch timer start, and the optime
parse of every record while building the insert statements. -/
def batchPrelude (ops : List Record) : List Event :=
  Event.incrementBatchSize ops.length :: Event.timerStart ::
    ops.map (fun o => Event.parseRecord (parseFromOplogEntry o))

/-- Mirrors `OplogWriterImpl::writeOplogBatch`: assert the batch non-empty,
record the batch-size metric and start the batch timer, build insert
statements by parsing each record's optime, write the oplog-collection leg,
then the change-collection leg, and return the oplog slot of the last
insert statement.  `dur` is the elapsed time the batch timer observes;
the timer-stop event is emitted when the timer holder goes out of scope,
which happens on normal return and on shutdown propagation but not when a
fatal assert halts the process. -/
def writeOplogBatch (skipWritesToOplogColl writeChangeCollection : Bool)
    (oa : OplogAttempt) (oas : List OplogAttempt)
    (ca : Option ErrorCode) (cas : List (Option ErrorCode))
    (dur : Nat) (ops : List Record) : List Event × WbResult :=
  match ops with
  | [] => ([], WbResult.fatalAssert invariantNonEmptyBatchId)
  | op :: rest =>
    let n := (op :: rest).length
    let docs := (op :: rest).map (fun o => InsertStatement.mk o (parseFromOplogEntry o))
    let pre := batchPrelude (op :: rest)
    let oleg := oplogCollLeg skipWritesToOplogColl n oa oas
    match oleg.2 with
    | SinkOutcome.shutdownStop =>
      (pre ++ oleg.1 ++ [Event.timerStop dur], WbResult.shutdownStop)
    | SinkOutcome.fatalAssert id => (pre ++ oleg.1, WbResult.fatalAssert id)
    | SinkOutcome.ok =>
      let cleg := changeCollLeg writeChangeCollection n ca cas
      match cleg.2 with
      | SinkOutcome.shutdownStop =>
        (pre ++ oleg.1 ++ cleg.1 ++ [Event.timerStop dur], WbResult.shutdownStop)
      | SinkOutcome.fatalAssert id => (pre ++ oleg.1 ++ cleg.1, WbResult.fatalAssert id)
      | SinkOutcome.ok =>
        (pre ++ oleg.1 ++ cleg.1 ++ [Event.timerStop dur],
         WbResult.ok (docs.getLast (by simp [docs])).oplogSlot)

/-- Mirrors `OplogWriterImpl::finalizeOplogBatch`: register oplog
visibility with the storage engine (ordered commit), advance the
last-written optime, and, only when `flushJournal` is set, trigger the
journal flusher — in that order. -/
def finalizeOplogBatch (t : OpTimeAndWallTime) (flushJournal : Bool) : List Event :=
  Event.oplogDiskLocRegister t.opTime.ts true ::
  Event.setLastWrittenForward t ::
  (if flushJournal then [Event.triggerJournalFlush] else [])

/-- Modelled from the spec:
`ReplicationCoordinator::setMyLastWrittenOpTimeAndWallTimeForward` (outside
this source slice) advances the last-written optime forward, meaning it is
a no-op unless the proposed optime is strictly greater than the current
one (monotonic, idempotent under retries). -/
def setMyLastWrittenOpTimeAndWallTimeForward (cur proposed : OpTimeAndWallTime) :
    OpTimeAndWallTime :=
  if OpTime.lt cur.opTime proposed.opTime then proposed else cur

/-- Stats kept by `OplogWriterStats`: the cumulative record count
(`_batchSize`, a 64-bit counter) and, modelled from the spec, the
`TimerStats` batch counter and aggregated batch timing (`_batches`, whose
implementation is outside this source slice: each completed batch timer
increments the count by one and adds its elapsed time). -/
structure OplogWriterStats where
  batchSize : Nat
  batchesNum : Nat
  batchesTotalMillis : Nat
deriving DecidableEq, Repr

/-- The report of the modelled `TimerStats`: number of timed batches and
total elapsed time. -/
structure TimerStatsReport where
  num : Nat
  totalMillis : Nat
deriving DecidableEq, Repr

/-- The report built by `OplogWriterStats::getReport`: the batch-size
counter and the batches timer report, and nothing else. -/
structure OplogWriterStatsReport where
  batchSize : Nat
  batches : TimerStatsReport
deriving DecidableEq, Repr

/-- Mirrors `OplogWriterStats::getReport`. -/
def OplogWriterStats.getReport (s : OplogWriterStats) : OplogWriterStatsReport :=
  ⟨s.batchSize, ⟨s.batchesNum, s.batchesTotalMillis⟩⟩

/-- Replays the stats side effects recorded in a trace:
`incrementBatchSize` adds to the record counter and a completed batch
timer bumps the batch counter and timing. -/
def applyStats (s : OplogWriterStats) : List Event → OplogWriterStats
  | [] => s
  | Event.incrementBatchSize n :: rest =>
    applyStats ⟨s.batchSize + n, s.batchesNum, s.batchesTotalMillis⟩ rest
  | Event.timerStop d :: rest =>
    applyStats ⟨s.batchSize, s.batchesNum + 1, s.batchesTotalMillis + d⟩ rest
  | _ :: rest => applyStats s rest

/-- The state the main loop carries across iterations: the drain-mode
flag, the replication coordinator's last-written optime (spec-modelled),
and the writer stats. -/
structure LoopState where
  applyBufferInDrainMode : Bool
  lastWritten : OpTimeAndWallTime
  stats : OplogWriterStats
deriving DecidableEq, Repr

/-- The outside input of one main-loop iteration: the fetched batch
with its exhausted flag, the shutdown poll, the change-collection mode
poll, the sink attempt environments, and the batch duration. -/
structure IterInput where
  batch : List Record
  exhausted : Bool
  inShutdown : Bool
  changeActive : Bool
  oplogFirst : OplogAttempt
  oplogRest : List OplogAttempt
  changeFirst : Option ErrorCode
  changeRest : List (Option ErrorCode)
  dur : Nat
deriving DecidableEq, Repr

/-- Result of one main-loop iteration: continue looping, return gracefully
(`stopped`), or halt the process on a fatal assert (`halted`). -/
inductive StepResult where
  | cont (s : LoopState) (events : List Event)
  | stopped (s : LoopState) (events : List Event)
  | halted (s : LoopState) (events : List Event) (id : Nat)
deriving DecidableEq, Repr

/-- The loop state a step result carries. -/
def StepResult.state : StepResult → LoopState
  | StepResult.cont s _ => s
  | StepResult.stopped s _ => s
  | StepResult.halted s _ _ => s

/-- The events a step result performed. -/
def StepResult.events : StepResult → List Event
  | StepResult.cont _ e => e
  | StepResult.stopped _ e => e
  | StepResult.halted _ e _ => e

/-- The id used to model the `invariant(swLastOpTime.getValue() ==
lastOpTimeAndWallTime.opTime)` check in `_run` firing. -/
def invariantLastOpTimeMismatchId : Nat := 8543192

/-- Mirrors `_run`'s computation of the journal-flush flag (source line
140): flush only when the storage engine is not ephemeral. -/
def runFlushJournal (isEphemeralStorage : Bool) : Bool := !isEphemeralStorage

/-- The body of one `_run` loop iteration after the drain-mode section:
on an empty batch, return when shutting down, else continue; otherwise
parse the last record, write the batch, stop silently on shutdown, halt on
a failed write or on a returned-optime mismatch, and on success finalize
the batch and push it to the apply buffer. -/
def processBatch (skipWritesToOplogColl isEphemeralStorage : Bool)
    (s1 : LoopState) (dEvs : List Event) (i : IterInput) : StepResult :=
  match i.batch with
  | [] =>
    if i.inShutdown then StepResult.stopped s1 dEvs else StepResult.cont s1 dEvs
  | op :: rest =>
    let lastOpTimeAndWallTime :=
      parseOpTimeAndWallTimeFromOplogEntry ((op :: rest).getLast (by simp))
    let wb := writeOplogBatch skipWritesToOplogColl i.changeActive
      i.oplogFirst i.oplogRest i.changeFirst i.changeRest i.dur (op :: rest)
    let s2 : LoopState := ⟨s1.applyBufferInDrainMode, s1.lastWritten,
      applyStats s1.stats wb.1⟩
    match wb.2 with
    | WbResult.shutdownStop => StepResult.stopped s2 (dEvs ++ wb.1)
    | WbResult.fatalAssert id => StepResult.halted s2 (dEvs ++ wb.1) id
    | WbResult.ok t =>
      if t = lastOpTimeAndWallTime.opTime then
        let fEvs := finalizeOplogBatch lastOpTimeAndWallTime
          (runFlushJournal isEphemeralStorage)
        let s3 : LoopState := ⟨s2.applyBufferInDrainMode,
          setMyLastWrittenOpTimeAndWallTimeForward s2.lastWritten lastOpTimeAndWallTime,
          s2.stats⟩
        StepResult.cont s3
          (dEvs ++ wb.1 ++ fEvs ++ [Event.applyBufferPush (op :: rest).length])
      else StepResult.halted s2 (dEvs ++ wb.1) invariantLastOpTimeMismatchId

/-- Mirrors one iteration of `OplogWriterImpl::_run`'s while loop: fetch
(given as `i`), toggle the apply buffer's drain mode when the exhausted
flag differs from the current drain-mode flag, then process the batch. -/
def runStep (skipWritesToOplogColl isEphemeralStorage : Bool)
    (s : LoopState) (i : IterInput) : StepResult :=
  let toggle := s.applyBufferInDrainMode != i.exhausted
  let dEvs := if toggle then
      (if s.applyBufferInDrainMode then [Event.exitDrainMode] else [Event.enterDrainMode])
    else []
  let s1 : LoopState := ⟨if toggle then i.exhausted else s.applyBufferInDrainMode,
    s.lastWritten, s.stats⟩
  processBatch skipWritesToOplogColl isEphemeralStorage s1 dEvs i

/-- How a finite run of the main loop ended: the supplied iteration inputs
ran out, the loop returned gracefully, or a fatal assert halted it. -/
inductive RunOutcome where
  | outOfInput
  | stopped
  | halted (id : Nat)
deriving DecidableEq, Repr

/-- Final state, full event trace and outcome of a finite run. -/
structure RunResult where
  state : LoopState
  trace : List Event
  outcome : RunOutcome
deriving DecidableEq, Repr

/-- Runs `_run`'s loop over a finite list of iteration inputs. -/
def run (skipWritesToOplogColl isEphemeralStorage : Bool)
    (s : LoopState) : List IterInput → RunResult
  | [] => ⟨s, [], RunOutcome.outOfInput⟩
  | i :: ins =>
    match runStep skipWritesToOplogColl isEphemeralStorage s i with
    | StepResult.cont s' evs =>
      let r := run skipWritesToOplogColl isEphemeralStorage s' ins
      ⟨r.state, evs ++ r.trace, r.outcome⟩
    | StepResult.stopped s' evs => ⟨s', evs, RunOutcome.stopped⟩
    | StepResult.halted s' evs id => ⟨s', evs, RunOutcome.halted id⟩

/-- Events belonging to the oplog-collection leg of a batch write: the
insert, its commit, and the post-commit observer notification. -/
def Event.isOplogSink : Event → Bool
  | Event.oplogInsertBegin _ => true
  | Event.oplogCommit _ => true
  | Event.onWriteOplogCollection _ => true
  | _ => false

/-- Events belonging to the change-collection leg of a batch write: the
insert, its commit, and the post-commit observer notification. -/
def Event.isChangeSink : Event → Bool
  | Event.changeCollInsertBegin _ => true
  | Event.changeCollCommit _ => true
  | Event.onWriteChangeCollection _ => true
  | _ => false

/-- Drain-mode signals sent to the apply buffer. -/
def Event.isDrainSignal : Event → Bool
  | Event.enterDrainMode => true
  | Event.exitDrainMode => true
  | _ => false

/-- Events that mutate the writer stats. -/
def Event.isStatsEvent : Event → Bool
  | Event.incrementBatchSize _ => true
  | Event.timerStop _ => true
  | _ => false

/-- Tests whether an event is an oplog-collection commit. -/
def Event.isOplogCommit : Event → Bool
  | Event.oplogCommit _ => true
  | _ => false

theorem OpTime.le_refl (a : OpTime) : OpTime.le a a := by
  simp [OpTime.le]

theorem OpTime.lt_irrefl (a : OpTime) : ¬ OpTime.lt a a := by
  simp [OpTime.lt]

theorem OpTime.le_of_lt {a b : OpTime} (h : OpTime.lt a b) : OpTime.le a b := by
  rcases h with h | ⟨e, t⟩
  · exact Or.inl h
  · exact Or.inr ⟨e, Int.le_of_lt t⟩

theorem OpTime.le_trans {a b c : OpTime} (h1 : OpTime.le a b) (h2 : OpTime.le b c) :
    OpTime.le a c := by
  rcases h1 with h1 | ⟨e1, t1⟩ <;> rcases h2 with h2 | ⟨e2, t2⟩ <;>
    unfold OpTime.le <;> omega

theorem oplogSink_not_changeSink {e : Event} (h : Event.isOplogSink e = true) :
    Event.isChangeSink e = false := by
  cases e <;> simp_all [Event.isOplogSink, Event.isChangeSink]

theorem oplogSink_not_stats {e : Event} (h : Event.isOplogSink e = true) :
    Event.isStatsEvent e = false := by
  cases e <;> simp_all [Event.isOplogSink, Event.isStatsEvent]

theorem oplogSink_not_drain {e : Event} (h : Event.isOplogSink e = true) :
    Event.isDrainSignal e = false := by
  cases e <;> simp_all [Event.isOplogSink, Event.isDrainSignal]

theorem changeSink_not_oplogSink {e : Event} (h : Event.isChangeSink e = true) :
    Event.isOplogSink e = false := by
  cases e <;> simp_all [Event.isOplogSink, Event.isChangeSink]

theorem changeSink_not_stats {e : Event} (h : Event.isChangeSink e = true) :
    Event.isStatsEvent e = false := by
  cases e <;> simp_all [Event.isChangeSink, Event.isStatsEvent]

theorem changeSink_not_drain {e : Event} (h : Event.isChangeSink e = true) :
    Event.isDrainSignal e = false := by
  cases e <;> simp_all [Event.isChangeSink, Event.isDrainSignal]

theorem oplogSink_not_inc {e : Event} (h : Event.isOplogSink e = true) (n : Nat) :
    e ≠ Event.incrementBatchSize n := by
  cases e <;> simp_all [Event.isOplogSink]

theorem changeSink_not_inc {e : Event} (h : Event.isChangeSink e = true) (n : Nat) :
    e ≠ Event.incrementBatchSize n := by
  cases e <;> simp_all [Event.isChangeSink]

theorem oplogSink_not_trigger {e : Event} (h : Event.isOplogSink e = true) :
    e ≠ Event.triggerJournalFlush := by
  cases e <;> simp_all [Event.isOplogSink]

theorem changeSink_not_trigger {e : Event} (h : Event.isChangeSink e = true) :
    e ≠ Event.triggerJournalFlush := by
  cases e <;> simp_all [Event.isChangeSink]

theorem insertDocsToOplogCollection_events (collExists : Bool)
    (st : Option ErrorCode) (n : Nat) :
    ∀ e ∈ (insertDocsToOplogCollection collExists st n).1,
      Event.isOplogSink e = true := by
  cases collExists <;> cases st <;>
    simp [insertDocsToOplogCollection, Event.isOplogSink]

theorem insertDocsToOplogCollection_success (collExists : Bool) (st : Option ErrorCode)
    (n : Nat) (h : (insertDocsToOplogCollection collExists st n).2 = none) :
    (insertDocsToOplogCollection collExists st n).1 =
      [Event.oplogInsertBegin n, Event.oplogCommit n] := by
  cases collExists <;> cases st <;> simp_all [insertDocsToOplogCollection]

theorem insertDocsToChangeCollection_events (st : Option ErrorCode) (n : Nat) :
    ∀ e ∈ (insertDocsToChangeCollection st n).1, Event.isChangeSink e = true := by
  cases st <;> simp [insertDocsToChangeCollection, Event.isChangeSink]

theorem insertDocsToChangeCollection_success (st : Option ErrorCode) (n : Nat)
    (h : (insertDocsToChangeCollection st n).2 = none) :
    (insertDocsToChangeCollection st n).1 =
      [Event.changeCollInsertBegin n, Event.changeCollCommit n] := by
  cases st <;> simp_all [insertDocsToChangeCollection]

theorem insertBatchAndHandleRetry_events_subset {α : Type}
    (f : α → List Event × Option ErrorCode) (P : Event → Prop)
    (hf : ∀ a, ∀ e ∈ (f a).1, P e) :
    ∀ (a : α) (rest : List α), ∀ e ∈ (insertBatchAndHandleRetry f a rest).1, P e
  | a, [] => by
    intro e he
    rw [insertBatchAndHandleRetry] at he
    exact hf a e he
  | a, b :: bs => by
    intro e he
    rcases hfa : f a with ⟨evs, st⟩
    rw [insertBatchAndHandleRetry, hfa] at he
    cases st with
    | none =>
      exact hf a e (by rw [hfa]; exact he)
    | some err =>
      by_cases hr : isRetryableError err = true
      · simp only [hr, if_true] at he
        rcases List.mem_append.mp he with h1 | h2
        · exact hf a e (by rw [hfa]; exact h1)
        · exact insertBatchAndHandleRetry_events_subset f P hf b bs e h2
      · simp only [Bool.not_eq_true] at hr
        simp only [hr, Bool.false_eq_true, if_false] at he
        exact hf a e (by rw [hfa]; exact he)

theorem insertBatchAndHandleRetry_success_shape {α : Type}
    (f : α → List Event × Option ErrorCode) :
    ∀ (a : α) (rest : List α),
      (insertBatchAndHandleRetry f a rest).2 = none →
      ∃ (l : List Event) (a' : α), (f a').2 = none ∧
        (insertBatchAndHandleRetry f a rest).1 = l ++ (f a').1
  | a, [] => by
    intro h
    rw [insertBatchAndHandleRetry] at h ⊢
    exact ⟨[], a, h, by simp⟩
  | a, b :: bs => by
    intro h
    rcases hfa : f a with ⟨evs, st⟩
    rw [insertBatchAndHandleRetry, hfa] at h ⊢
    cases st with
    | none => exact ⟨[], a, by rw [hfa], by simp [hfa]⟩
    | some err =>
      by_cases hr : isRetryableError err = true
      · simp only [hr, if_true] at h ⊢
        rcases insertBatchAndHandleRetry_success_shape f b bs h with ⟨l, a', ha', hev⟩
        exact ⟨evs ++ l, a', ha', by simp [hev]⟩
      · simp only [Bool.not_eq_true] at hr
        simp only [hr, Bool.false_eq_true, if_false] at h
        exact Option.noConfusion h

theorem insertBatchAndHandleRetry_first_nonretryable {α : Type}
    (f : α → List Event × Option ErrorCode)
    (a : α) (rest : List α) (evs : List Event) (err : ErrorCode)
    (hfa : f a = (evs, some err)) (hnr : isRetryableError err = false) :
    insertBatchAndHandleRetry f a rest = (evs, some err) := by
  cases rest with
  | nil => rw [insertBatchAndHandleRetry]; exact hfa
  | cons b bs =>
    rw [insertBatchAndHandleRetry, hfa]
    simp [hnr]

theorem applyStats_append (s : OplogWriterStats) (l1 l2 : List Event) :
    applyStats s (l1 ++ l2) = applyStats (applyStats s l1) l2 := by
  induction l1 generalizing s with
  | nil => rfl
  | cons x l1 ih => cases x <;> simp [applyStats, ih]

theorem applyStats_neutral (s : OplogWriterStats) :
    ∀ evs : List Event, (∀ e ∈ evs, Event.isStatsEvent e = false) →
      applyStats s evs = s
  | [], _ => rfl
  | x :: l, h => by
    have hx := h x (List.mem_cons_self x l)
    have hl : ∀ e ∈ l, Event.isStatsEvent e = false :=
      fun e he => h e (List.mem_cons_of_mem x he)
    cases x <;> first
      | exact applyStats_neutral s l hl
      | simp [Event.isStatsEvent] at hx

theorem applyStats_batchSize_no_inc :
    ∀ (s : OplogWriterStats) (evs : List Event),
      (∀ n, Event.incrementBatchSize n ∉ evs) →
      (applyStats s evs).batchSize = s.batchSize
  | _, [], _ => rfl
  | s, x :: l, h => by
    have hl : ∀ n, Event.incrementBatchSize n ∉ l :=
      fun n hn => h n (List.mem_cons_of_mem x hn)
    cases x <;> first
      | exact absurd (List.mem_cons_self _ _) (h _)
      | exact applyStats_batchSize_no_inc _ l hl

theorem writeOplogBatchImplStatus_ok {st : Option ErrorCode}
    (h : writeOplogBatchImplStatus st = SinkOutcome.ok) : st = none := by
  cases st with
  | none => rfl
  | some e => cases e <;> simp [writeOplogBatchImplStatus] at h

theorem oplogCollLeg_skip (n : Nat) (oa : OplogAttempt) (oas : List OplogAttempt) :
    oplogCollLeg true n oa oas = ([], SinkOutcome.ok) := rfl

theorem changeCollLeg_inactive (n : Nat) (ca : Option ErrorCode)
    (cas : List (Option ErrorCode)) :
    changeCollLeg false n ca cas = ([], SinkOutcome.ok) := rfl

theorem oplogCollLeg_events (skip : Bool) (n : Nat) (oa : OplogAttempt)
    (oas : List OplogAttempt) :
    ∀ e ∈ (oplogCollLeg skip n oa oas).1, Event.isOplogSink e = true := by
  intro e he
  cases skip with
  | true => simp [oplogCollLeg] at he
  | false =>
    have hsub : ∀ e ∈ (insertBatchAndHandleRetry
        (fun a => insertDocsToOplogCollection a.collExists a.insertStatus n) oa oas).1,
        Event.isOplogSink e = true :=
      insertBatchAndHandleRetry_events_subset _ _
        (fun a => insertDocsToOplogCollection_events a.collExists a.insertStatus n) oa oas
    cases h2 : (writeOplogBatchImpl
        (fun a => insertDocsToOplogCollection a.collExists a.insertStatus n) oa oas).2 with
    | ok =>
      simp only [oplogCollLeg, Bool.false_eq_true, if_false, h2] at he
      rcases List.mem_append.mp he with h1 | h1
      · exact hsub e h1
      · simp only [List.mem_singleton] at h1
        subst h1; rfl
    | shutdownStop =>
      simp only [oplogCollLeg, Bool.false_eq_true, if_false, h2] at he
      exact hsub e he
    | fatalAssert id =>
      simp only [oplogCollLeg, Bool.false_eq_true, if_false, h2] at he
      exact hsub e he

theorem changeCollLeg_events (act : Bool) (n : Nat) (ca : Option ErrorCode)
    (cas : List (Option ErrorCode)) :
    ∀ e ∈ (changeCollLeg act n ca cas).1, Event.isChangeSink e = true := by
  intro e he
  cases act with
  | false => simp [changeCollLeg] at he
  | true =>
    have hsub : ∀ e ∈ (insertBatchAndHandleRetry
        (fun st => insertDocsToChangeCollection st n) ca cas).1,
        Event.isChangeSink e = true :=
      insertBatchAndHandleRetry_events_subset _ _
        (fun st => insertDocsToChangeCollection_events st n) ca cas
    cases h2 : (writeOplogBatchImpl
        (fun st => insertDocsToChangeCollection st n) ca cas).2 with
    | ok =>
      simp only [changeCollLeg, if_true, h2] at he
      rcases List.mem_append.mp he with h1 | h1
      · exact hsub e h1
      · simp only [List.mem_singleton] at h1
        subst h1; rfl
    | shutdownStop =>
      simp only [changeCollLeg, if_true, h2] at he
      exact hsub e he
    | fatalAssert id =>
      simp only [changeCollLeg, if_true, h2] at he
      exact hsub e he

theorem oplogCollLeg_success_shape (n : Nat) (oa : OplogAttempt)
    (oas : List OplogAttempt)
    (h : (oplogCollLeg false n oa oas).2 = SinkOutcome.ok) :
    ∃ l, (oplogCollLeg false n oa oas).1 =
      l ++ [Event.oplogCommit n, Event.onWriteOplogCollection n] := by
  cases h2 : (writeOplogBatchImpl
      (fun a => insertDocsToOplogCollection a.collExists a.insertStatus n) oa oas).2 with
  | ok =>
    have hret : (insertBatchAndHandleRetry
        (fun a => insertDocsToOplogCollection a.collExists a.insertStatus n) oa oas).2 =
        none := writeOplogBatchImplStatus_ok h2
    rcases insertBatchAndHandleRetry_success_shape _ oa oas hret with ⟨l, a', ha', hev⟩
    have hsucc := insertDocsToOplogCollection_success a'.collExists a'.insertStatus n ha'
    refine ⟨l ++ [Event.oplogInsertBegin n], ?_⟩
    simp only [oplogCollLeg, Bool.false_eq_true, if_false, h2]
    show (insertBatchAndHandleRetry _ oa oas).1 ++ [Event.onWriteOplogCollection n] = _
    rw [hev, hsucc]
    simp
  | shutdownStop => simp [oplogCollLeg, h2] at h
  | fatalAssert id => simp [oplogCollLeg, h2] at h

theorem changeCollLeg_success_shape (n : Nat) (ca : Option ErrorCode)
    (cas : List (Option ErrorCode))
    (h : (changeCollLeg true n ca cas).2 = SinkOutcome.ok) :
    ∃ l, (changeCollLeg true n ca cas).1 =
      l ++ [Event.changeCollCommit n, Event.onWriteChangeCollection n] := by
  cases h2 : (writeOplogBatchImpl
      (fun st => insertDocsToChangeCollection st n) ca cas).2 with
  | ok =>
    have hret : (insertBatchAndHandleRetry
        (fun st => insertDocsToChangeCollection st n) ca cas).2 = none :=
      writeOplogBatchImplStatus_ok h2
    rcases insertBatchAndHandleRetry_success_shape _ ca cas hret with ⟨l, a', ha', hev⟩
    have hsucc := insertDocsToChangeCollection_success a' n ha'
    refine ⟨l ++ [Event.changeCollInsertBegin n], ?_⟩
    simp only [changeCollLeg, if_true, h2]
    show (insertBatchAndHandleRetry _ ca cas).1 ++ [Event.onWriteChangeCollection n] = _
    rw [hev, hsucc]
    simp
  | shutdownStop => simp [changeCollLeg, h2] at h
  | fatalAssert id => simp [changeCollLeg, h2] at h

theorem batchPrelude_kinds (ops : List Record) :
    ∀ e ∈ batchPrelude ops, Event.isOplogSink e = false ∧
      Event.isChangeSink e = false ∧ Event.isDrainSignal e = false ∧
      e ≠ Event.triggerJournalFlush ∧ Event.isOplogCommit e = false := by
  intro e he
  simp only [batchPrelude, List.mem_cons] at he
  rcases he with rfl | rfl | he
  · exact ⟨rfl, rfl, rfl, by simp, rfl⟩
  · exact ⟨rfl, rfl, rfl, by simp, rfl⟩
  · rcases List.mem_map.mp he with ⟨o, _, rfl⟩
    exact ⟨rfl, rfl, rfl, by simp, rfl⟩

theorem applyStats_batchPrelude (s : OplogWriterStats) (ops : List Record) :
    applyStats s (batchPrelude ops) =
      ⟨s.batchSize + ops.length, s.batchesNum, s.batchesTotalMillis⟩ := by
  show applyStats ⟨s.batchSize + ops.length, s.batchesNum, s.batchesTotalMillis⟩
      (ops.map (fun o => Event.parseRecord (parseFromOplogEntry o))) = _
  exact applyStats_neutral _ _ (fun e he => by
    rcases List.mem_map.mp he with ⟨o, _, rfl⟩; rfl)

theorem getLastDoc_oplogSlot (op : Record) (rest : List Record)
    (h : List.map (fun o => InsertStatement.mk o (parseFromOplogEntry o)) (op :: rest) ≠ [])
    (h' : (op :: rest : List Record) ≠ []) :
    ((List.map (fun o => InsertStatement.mk o (parseFromOplogEntry o))
        (op :: rest)).getLast h).oplogSlot =
      ((op :: rest).getLast h').opTime := by
  rw [List.getLast_map]
  rfl

theorem writeOplogBatch_eq_ok (skip act : Bool) (oa : OplogAttempt)
    (oas : List OplogAttempt) (ca : Option ErrorCode) (cas : List (Option ErrorCode))
    (dur : Nat) (op : Record) (rest : List Record)
    (h1 : (oplogCollLeg skip (op :: rest).length oa oas).2 = SinkOutcome.ok)
    (h2 : (changeCollLeg act (op :: rest).length ca cas).2 = SinkOutcome.ok) :
    writeOplogBatch skip act oa oas ca cas dur (op :: rest) =
      (batchPrelude (op :: rest) ++ (oplogCollLeg skip (op :: rest).length oa oas).1 ++
        (changeCollLeg act (op :: rest).length ca cas).1 ++ [Event.timerStop dur],
       WbResult.ok (((op :: rest).getLast (List.cons_ne_nil op rest)).opTime)) := by
  simp only [writeOplogBatch]
  rw [h1, h2]
  simp only [Prod.mk.injEq, List.append_assoc, true_and]
  exact getLastDoc_oplogSlot op rest (by simp) (List.cons_ne_nil op rest) ▸ rfl

theorem writeOplogBatch_eq_oplogShutdown (skip act : Bool) (oa : OplogAttempt)
    (oas : List OplogAttempt) (ca : Option ErrorCode) (cas : List (Option ErrorCode))
    (dur : Nat) (op : Record) (rest : List Record)
    (h1 : (oplogCollLeg skip (op :: rest).length oa oas).2 = SinkOutcome.shutdownStop) :
    writeOplogBatch skip act oa oas ca cas dur (op :: rest) =
      (batchPrelude (op :: rest) ++ (oplogCollLeg skip (op :: rest).length oa oas).1 ++
        [Event.timerStop dur], WbResult.shutdownStop) := by
  simp only [writeOplogBatch]
  rw [h1]

theorem writeOplogBatch_eq_oplogFatal (skip act : Bool) (oa : OplogAttempt)
    (oas : List OplogAttempt) (ca : Option ErrorCode) (cas : List (Option ErrorCode))
    (dur : Nat) (op : Record) (rest : List Record) (id : Nat)
    (h1 : (oplogCollLeg skip (op :: rest).length oa oas).2 = SinkOutcome.fatalAssert id) :
    writeOplogBatch skip act oa oas ca cas dur (op :: rest) =
      (batchPrelude (op :: rest) ++ (oplogCollLeg skip (op :: rest).length oa oas).1,
       WbResult.fatalAssert id) := by
  simp only [writeOplogBatch]
  rw [h1]

theorem writeOplogBatch_eq_changeShutdown (skip act : Bool) (oa : OplogAttempt)
    (oas : List OplogAttempt) (ca : Option ErrorCode) (cas : List (Option ErrorCode))
    (dur : Nat) (op : Record) (rest : List Record)
    (h1 : (oplogCollLeg skip (op :: rest).length oa oas).2 = SinkOutcome.ok)
    (h2 : (changeCollLeg act (op :: rest).length ca cas).2 = SinkOutcome.shutdownStop) :
    writeOplogBatch skip act oa oas ca cas dur (op :: rest) =
      (batchPrelude (op :: rest) ++ (oplogCollLeg skip (op :: rest).length oa oas).1 ++
        (changeCollLeg act (op :: rest).length ca cas).1 ++ [Event.timerStop dur],
       WbResult.shutdownStop) := by
  simp only [writeOplogBatch]
  rw [h1, h2]

theorem writeOplogBatch_eq_changeFatal (skip act : Bool) (oa : OplogAttempt)
    (oas : List OplogAttempt) (ca : Option ErrorCode) (cas : List (Option ErrorCode))
    (dur : Nat) (op : Record) (rest : List Record) (id : Nat)
    (h1 : (oplogCollLeg skip (op :: rest).length oa oas).2 = SinkOutcome.ok)
    (h2 : (changeCollLeg act (op :: rest).length ca cas).2 = SinkOutcome.fatalAssert id) :
    writeOplogBatch skip act oa oas ca cas dur (op :: rest) =
      (batchPrelude (op :: rest) ++ (oplogCollLeg skip (op :: rest).length oa oas).1 ++
        (changeCollLeg act (op :: rest).length ca cas).1, WbResult.fatalAssert id) := by
  simp only [writeOplogBatch]
  rw [h1, h2]

theorem writeOplogBatch_trace_shape (skip act : Bool) (oa : OplogAttempt)
    (oas : List OplogAttempt) (ca : Option ErrorCode) (cas : List (Option ErrorCode))
    (dur : Nat) (op : Record) (rest : List Record) :
    ∃ oEvs cEvs tail,
      (writeOplogBatch skip act oa oas ca cas dur (op :: rest)).1 =
        batchPrelude (op :: rest) ++ oEvs ++ cEvs ++ tail ∧
      (∀ e ∈ oEvs, Event.isOplogSink e = true) ∧
      (∀ e ∈ cEvs, Event.isChangeSink e = true) ∧
      (tail = [] ∨ tail = [Event.timerStop dur]) ∧
      (act = false → cEvs = []) := by
  cases h1 : (oplogCollLeg skip (op :: rest).length oa oas).2 with
  | ok =>
    cases h2 : (changeCollLeg act (op :: rest).length ca cas).2 with
    | ok =>
      refine ⟨(oplogCollLeg skip (op :: rest).length oa oas).1,
        (changeCollLeg act (op :: rest).length ca cas).1, [Event.timerStop dur],
        ?_, oplogCollLeg_events _ _ _ _, changeCollLeg_events _ _ _ _,
        Or.inr rfl, fun hact => by rw [hact]; rfl⟩
      rw [writeOplogBatch_eq_ok skip act oa oas ca cas dur op rest h1 h2]
    | shutdownStop =>
      refine ⟨(oplogCollLeg skip (op :: rest).length oa oas).1,
        (changeCollLeg act (op :: rest).length ca cas).1, [Event.timerStop dur],
        ?_, oplogCollLeg_events _ _ _ _, changeCollLeg_events _ _ _ _,
        Or.inr rfl, fun hact => by rw [hact]; rfl⟩
      rw [writeOplogBatch_eq_changeShutdown skip act oa oas ca cas dur op rest h1 h2]
    | fatalAssert id =>
      refine ⟨(oplogCollLeg skip (op :: rest).length oa oas).1,
        (changeCollLeg act (op :: rest).length ca cas).1, [],
        ?_, oplogCollLeg_events _ _ _ _, changeCollLeg_events _ _ _ _,
        Or.inl rfl, fun hact => by rw [hact]; rfl⟩
      rw [writeOplogBatch_eq_changeFatal skip act oa oas ca cas dur op rest id h1 h2]
      simp
  | shutdownStop =>
    refine ⟨(oplogCollLeg skip (op :: rest).length oa oas).1, [], [Event.timerStop dur],
      ?_, oplogCollLeg_events _ _ _ _, by simp, Or.inr rfl, fun _ => rfl⟩
    rw [writeOplogBatch_eq_oplogShutdown skip act oa oas ca cas dur op rest h1]
    simp
  | fatalAssert id =>
    refine ⟨(oplogCollLeg skip (op :: rest).length oa oas).1, [], [],
      ?_, oplogCollLeg_events _ _ _ _, by simp, Or.inl rfl, fun _ => rfl⟩
    rw [writeOplogBatch_eq_oplogFatal skip act oa oas ca cas dur op rest id h1]
    simp

theorem writeOplogBatchImplStatus_fatal {st : Option ErrorCode} {id : Nat}
    (h : writeOplogBatchImplStatus st = SinkOutcome.fatalAssert id) : id = 8352101 := by
  cases st with
  | none => simp [writeOplogBatchImplStatus] at h
  | some e => cases e <;> simp_all [writeOplogBatchImplStatus]

theorem oplogCollLeg_fatal {skip : Bool} {n : Nat} {oa : OplogAttempt}
    {oas : List OplogAttempt} {id : Nat}
    (h : (oplogCollLeg skip n oa oas).2 = SinkOutcome.fatalAssert id) : id = 8352101 := by
  cases skip with
  | true => simp [oplogCollLeg] at h
  | false =>
    cases h2 : (writeOplogBatchImpl
        (fun a => insertDocsToOplogCollection a.collExists a.insertStatus n) oa oas).2 with
    | ok => simp [oplogCollLeg, h2] at h
    | shutdownStop => simp [oplogCollLeg, h2] at h
    | fatalAssert id' =>
      simp only [oplogCollLeg, Bool.false_eq_true, if_false, h2] at h
      have : id' = id := by simpa using h
      exact this ▸ writeOplogBatchImplStatus_fatal h2

theorem changeCollLeg_fatal {act : Bool} {n : Nat} {ca : Option ErrorCode}
    {cas : List (Option ErrorCode)} {id : Nat}
    (h : (changeCollLeg act n ca cas).2 = SinkOutcome.fatalAssert id) : id = 8352101 := by
  cases act with
  | false => simp [changeCollLeg] at h
  | true =>
    cases h2 : (writeOplogBatchImpl
        (fun st => insertDocsToChangeCollection st n) ca cas).2 with
    | ok => simp [changeCollLeg, h2] at h
    | shutdownStop => simp [changeCollLeg, h2] at h
    | fatalAssert id' =>
      simp only [changeCollLeg, if_true, h2] at h
      have : id' = id := by simpa using h
      exact this ▸ writeOplogBatchImplStatus_fatal h2

theorem writeOplogBatch_fatal_ids (skip act : Bool) (oa : OplogAttempt)
    (oas : List OplogAttempt) (ca : Option ErrorCode) (cas : List (Option ErrorCode))
    (dur : Nat) (ops : List Record) (id : Nat)
    (h : (writeOplogBatch skip act oa oas ca cas dur ops).2 = WbResult.fatalAssert id) :
    id = 8352101 ∨ id = invariantNonEmptyBatchId := by
  cases ops with
  | nil =>
    right
    have : invariantNonEmptyBatchId = id := by simpa [writeOplogBatch] using h
    exact this.symm
  | cons op rest =>
    cases h1 : (oplogCollLeg skip (op :: rest).length oa oas).2 with
    | ok =>
      cases h2 : (changeCollLeg act (op :: rest).length ca cas).2 with
      | ok =>
        rw [writeOplogBatch_eq_ok skip act oa oas ca cas dur op rest h1 h2] at h
        simp at h
      | shutdownStop =>
        rw [writeOplogBatch_eq_changeShutdown skip act oa oas ca cas dur op rest h1 h2] at h
        simp at h
      | fatalAssert id' =>
        rw [writeOplogBatch_eq_changeFatal skip act oa oas ca cas dur op rest id' h1 h2] at h
        have hid : id' = id := by simpa using h
        exact Or.inl (hid ▸ changeCollLeg_fatal h2)
    | shutdownStop =>
      rw [writeOplogBatch_eq_oplogShutdown skip act oa oas ca cas dur op rest h1] at h
      simp at h
    | fatalAssert id' =>
      rw [writeOplogBatch_eq_oplogFatal skip act oa oas ca cas dur op rest id' h1] at h
      have hid : id' = id := by simpa using h
      exact Or.inl (hid ▸ oplogCollLeg_fatal h1)

theorem writeOplogBatch_no_drain (skip act : Bool) (oa : OplogAttempt)
    (oas : List OplogAttempt) (ca : Option ErrorCode) (cas : List (Option ErrorCode))
    (dur : Nat) (ops : List Record) :
    ∀ e ∈ (writeOplogBatch skip act oa oas ca cas dur ops).1,
      Event.isDrainSignal e = false := by
  intro e he
  cases ops with
  | nil => simp [writeOplogBatch] at he
  | cons op rest =>
    rcases writeOplogBatch_trace_shape skip act oa oas ca cas dur op rest with
      ⟨oEvs, cEvs, tail, htr, ho, hc, htail, _⟩
    rw [htr] at he
    simp only [List.append_assoc, List.mem_append] at he
    rcases he with he | he | he | he
    · exact (batchPrelude_kinds _ e he).2.2.1
    · exact oplogSink_not_drain (ho e he)
    · exact changeSink_not_drain (hc e he)
    · rcases htail with rfl | rfl
      · simp at he
      · simp only [List.mem_singleton] at he
        subst he; rfl

theorem writeOplogBatch_no_trigger (skip act : Bool) (oa : OplogAttempt)
    (oas : List OplogAttempt) (ca : Option ErrorCode) (cas : List (Option ErrorCode))
    (dur : Nat) (ops : List Record) :
    Event.triggerJournalFlush ∉ (writeOplogBatch skip act oa oas ca cas dur ops).1 := by
  intro he
  cases ops with
  | nil => simp [writeOplogBatch] at he
  | cons op rest =>
    rcases writeOplogBatch_trace_shape skip act oa oas ca cas dur op rest with
      ⟨oEvs, cEvs, tail, htr, ho, hc, htail, _⟩
    rw [htr] at he
    simp only [List.append_assoc, List.mem_append] at he
    rcases he with he | he | he | he
    · exact (batchPrelude_kinds _ _ he).2.2.2.1 rfl
    · exact oplogSink_not_trigger (ho _ he) rfl
    · exact changeSink_not_trigger (hc _ he) rfl
    · rcases htail with rfl | rfl <;> simp at he

theorem finalizeOplogBatch_no_drain (t : OpTimeAndWallTime) (fj : Bool) :
    ∀ e ∈ finalizeOplogBatch t fj, Event.isDrainSignal e = false := by
  intro e he
  cases fj with
  | false =>
    simp [finalizeOplogBatch] at he
    rcases he with rfl | rfl <;> rfl
  | true =>
    simp [finalizeOplogBatch] at he
    rcases he with rfl | rfl | rfl <;> rfl

theorem processBatch_flag (skip isE : Bool) (s1 : LoopState) (dEvs : List Event)
    (i : IterInput) :
    (processBatch skip isE s1 dEvs i).state.applyBufferInDrainMode =
      s1.applyBufferInDrainMode := by
  obtain ⟨batch, exh, sh, act, oa, oas, ca, cas, dur⟩ := i
  cases batch with
  | nil =>
    simp only [processBatch]
    split <;> rfl
  | cons op rest =>
    simp only [processBatch]
    split
    · rfl
    · rfl
    · split <;> rfl

theorem processBatch_events (skip isE : Bool) (s1 : LoopState) (dEvs : List Event)
    (i : IterInput) :
    ∃ tailEvs, (processBatch skip isE s1 dEvs i).events = dEvs ++ tailEvs ∧
      ∀ e ∈ tailEvs, Event.isDrainSignal e = false := by
  obtain ⟨batch, exh, sh, act, oa, oas, ca, cas, dur⟩ := i
  cases batch with
  | nil =>
    refine ⟨[], ?_, by simp⟩
    simp only [processBatch]
    split <;> simp [StepResult.events]
  | cons op rest =>
    simp only [processBatch]
    split
    · exact ⟨_, rfl, writeOplogBatch_no_drain skip act oa oas ca cas dur (op :: rest)⟩
    · exact ⟨_, rfl, writeOplogBatch_no_drain skip act oa oas ca cas dur (op :: rest)⟩
    · split
      · refine ⟨(writeOplogBatch skip act oa oas ca cas dur (op :: rest)).1 ++
          (finalizeOplogBatch (parseOpTimeAndWallTimeFromOplogEntry
            ((op :: rest).getLast (by simp))) (runFlushJournal isE) ++
          [Event.applyBufferPush (op :: rest).length]), ?_, ?_⟩
        · simp [StepResult.events]
        · intro e he
          simp only [List.mem_append] at he
          rcases he with he | he | he
          · exact writeOplogBatch_no_drain skip act oa oas ca cas dur (op :: rest) e he
          · exact finalizeOplogBatch_no_drain _ _ e he
          · simp only [List.mem_singleton] at he
            subst he; rfl
      · exact ⟨_, rfl, writeOplogBatch_no_drain skip act oa oas ca cas dur (op :: rest)⟩

theorem processBatch_drain_filter (skip isE : Bool) (s1 : LoopState)
    (dEvs : List Event) (i : IterInput)
    (hd : ∀ e ∈ dEvs, Event.isDrainSignal e = true) :
    (processBatch skip isE s1 dEvs i).events.filter Event.isDrainSignal = dEvs := by
  rcases processBatch_events skip isE s1 dEvs i with ⟨tail, hev, htail⟩
  rw [hev, List.filter_append]
  rw [List.filter_eq_self.mpr (fun e hme => by simp [hd e hme])]
  rw [List.filter_eq_nil_iff.mpr (fun e hme => by simp [htail e hme])]
  simp

/-- C1: for every non-empty batch, `writeOplogBatch` on success returns
exactly the optime parsed from the last record of the input batch, and
consequently the caller's fatal equality check in `_run` between the
returned optime and the last record's parsed optime never fires: the main
loop never halts with the optime-mismatch invariant id. -/
theorem writeOplogBatch_returns_last_optime
    (skip act exh sh isE : Bool) (oa : OplogAttempt) (oas : List OplogAttempt)
    (ca : Option ErrorCode) (cas : List (Option ErrorCode)) (dur : Nat)
    (ops : List Record) (hne : ops ≠ []) (s : LoopState) :
    (∀ t, (writeOplogBatch skip act oa oas ca cas dur ops).2 = WbResult.ok t →
      t = (ops.getLast hne).opTime) ∧
    (∀ (s' : LoopState) (evs : List Event),
      runStep skip isE s ⟨ops, exh, sh, act, oa, oas, ca, cas, dur⟩ ≠
        StepResult.halted s' evs invariantLastOpTimeMismatchId) := by
  cases ops with
  | nil => exact absurd rfl hne
  | cons op rest =>
    have hok : ∀ t,
        (writeOplogBatch skip act oa oas ca cas dur (op :: rest)).2 = WbResult.ok t →
        t = ((op :: rest).getLast (List.cons_ne_nil op rest)).opTime := by
      intro t h
      cases h1 : (oplogCollLeg skip (op :: rest).length oa oas).2 with
      | ok =>
        cases h2 : (changeCollLeg act (op :: rest).length ca cas).2 with
        | ok =>
          rw [writeOplogBatch_eq_ok skip act oa oas ca cas dur op rest h1 h2] at h
          have h' : ((op :: rest).getLast (List.cons_ne_nil op rest)).opTime = t := by
            simpa using h
          exact h'.symm
        | shutdownStop =>
          rw [writeOplogBatch_eq_changeShutdown skip act oa oas ca cas dur op rest h1 h2]
            at h
          simp at h
        | fatalAssert id =>
          rw [writeOplogBatch_eq_changeFatal skip act oa oas ca cas dur op rest id h1 h2]
            at h
          simp at h
      | shutdownStop =>
        rw [writeOplogBatch_eq_oplogShutdown skip act oa oas ca cas dur op rest h1] at h
        simp at h
      | fatalAssert id =>
        rw [writeOplogBatch_eq_oplogFatal skip act oa oas ca cas dur op rest id h1] at h
        simp at h
    refine ⟨hok, ?_⟩
    intro s' evs heq
    cases hw : (writeOplogBatch skip act oa oas ca cas dur (op :: rest)).2 with
    | ok t =>
      simp only [runStep, processBatch, hw] at heq
      split at heq
      · exact StepResult.noConfusion heq
      · rename_i hcond
        exact hcond (hok t hw)
    | shutdownStop =>
      simp only [runStep, processBatch, hw] at heq
      exact StepResult.noConfusion heq
    | fatalAssert id =>
      simp only [runStep, processBatch, hw] at heq
      have hid : id = invariantLastOpTimeMismatchId := by
        injection heq
      rcases writeOplogBatch_fatal_ids skip act oa oas ca cas dur (op :: rest) id hw
        with h8 | h8 <;>
        rw [h8] at hid <;>
        exact absurd hid (by decide)

/-- Witness for C1: a concrete two-record batch written with no failures
returns the optime of its second (last) record. -/
theorem writeOplogBatch_returns_last_optime_witness :
    (([⟨⟨10, 1⟩, 100⟩, ⟨⟨11, 1⟩, 101⟩] : List Record) ≠ []) ∧
    (writeOplogBatch false false ⟨true, none⟩ [] none [] 5
      [⟨⟨10, 1⟩, 100⟩, ⟨⟨11, 1⟩, 101⟩]).2 = WbResult.ok ⟨11, 1⟩ ∧
    (⟨11, 1⟩ : OpTime) =
      (([⟨⟨10, 1⟩, 100⟩, ⟨⟨11, 1⟩, 101⟩] : List Record).getLast (by decide)).opTime :=
  ⟨by decide, by decide,
    (writeOplogBatch_returns_last_optime false false false false false
      ⟨true, none⟩ [] none [] 5 [⟨⟨10, 1⟩, 100⟩, ⟨⟨11, 1⟩, 101⟩] (by decide)
      ⟨false, ⟨⟨0, 0⟩, 0⟩, ⟨0, 0, 0⟩⟩).1 ⟨11, 1⟩ (by decide)⟩

/-- C2 (amended): after every main-loop iteration, including the very
first, the drain-mode flag `_applyBufferInDrainMode` equals the exhausted
flag of the most recently fetched batch (the claim's negation is wrong),
and the apply buffer's drain mode is toggled — `enterDrainMode` when the
flag was false and the batch was exhausted, `exitDrainMode` when the flag
was true and the batch was not — exactly when the flag changes. -/
theorem drainMode_flag_tracks_exhausted (skip isE : Bool) (s : LoopState)
    (i : IterInput) :
    (runStep skip isE s i).state.applyBufferInDrainMode = i.exhausted ∧
    (runStep skip isE s i).events.filter Event.isDrainSignal =
      (if s.applyBufferInDrainMode = i.exhausted then []
       else if s.applyBufferInDrainMode then [Event.exitDrainMode]
       else [Event.enterDrainMode]) := by
  obtain ⟨fl, lw, st⟩ := s
  have hfilterNil : ∀ s1 : LoopState,
      (processBatch skip isE s1 [] i).events.filter Event.isDrainSignal = [] :=
    fun s1 => processBatch_drain_filter skip isE s1 [] i (by simp)
  have hfilterEnter : ∀ s1 : LoopState,
      (processBatch skip isE s1 [Event.enterDrainMode] i).events.filter
        Event.isDrainSignal = [Event.enterDrainMode] :=
    fun s1 => processBatch_drain_filter skip isE s1 [Event.enterDrainMode] i
      (by intro e hme; simp only [List.mem_singleton] at hme; subst hme; rfl)
  have hfilterExit : ∀ s1 : LoopState,
      (processBatch skip isE s1 [Event.exitDrainMode] i).events.filter
        Event.isDrainSignal = [Event.exitDrainMode] :=
    fun s1 => processBatch_drain_filter skip isE s1 [Event.exitDrainMode] i
      (by intro e hme; simp only [List.mem_singleton] at hme; subst hme; rfl)
  cases fl with
  | false =>
    cases he : i.exhausted with
    | false =>
      constructor
      · simp only [runStep, he]
        simp only [bne_self_eq_false, Bool.false_eq_true, if_false, ite_self]
        rw [processBatch_flag]
      · simp only [runStep, he]
        simp only [bne_self_eq_false, Bool.false_eq_true, if_false, ite_self]
        rw [hfilterNil]
        simp
    | true =>
      constructor
      · simp only [runStep, he]
        simp
        rw [processBatch_flag]
      · simp only [runStep, he]
        simp
        rw [hfilterEnter]
  | true =>
    cases he : i.exhausted with
    | false =>
      constructor
      · simp only [runStep, he]
        simp
        rw [processBatch_flag]
      · simp only [runStep, he]
        simp
        rw [hfilterExit]
    | true =>
      constructor
      · simp only [runStep, he]
        simp only [bne_self_eq_false, Bool.false_eq_true, if_false, ite_self]
        rw [processBatch_flag]
      · simp only [runStep, he]
        simp only [bne_self_eq_false, Bool.false_eq_true, if_false, ite_self]
        rw [hfilterNil]
        simp

/-- C2 counterexample: on the very first iteration (drain-mode flag
initially false) a fetch with the exhausted flag set leaves the flag equal
to `true`, which is not the negation of the exhausted flag, refuting the
claim as stated. -/
theorem drainMode_flag_negation_counterexample :
    ¬ ((runStep false false ⟨false, ⟨⟨0, 0⟩, 0⟩, ⟨0, 0, 0⟩⟩
        ⟨[], true, false, false, ⟨true, none⟩, [], none, [], 0⟩).state.applyBufferInDrainMode
      = !(⟨[], true, false, false, ⟨true, none⟩, [], none, [], 0⟩ : IterInput).exhausted) := by
  decide

/-- C7: when the fetched batch is empty the iteration performs no write,
no finalization and no forward — its only events are drain-mode signals —
leaves the stats and last-written position untouched, terminates the loop
(stopped) when the system is shutting down, and otherwise continues to the
next iteration. -/
theorem emptyBatch_iteration (skip isE : Bool) (s : LoopState) (i : IterInput)
    (hb : i.batch = []) :
    (∀ e ∈ (runStep skip isE s i).events, Event.isDrainSignal e = true) ∧
    (runStep skip isE s i).state.stats = s.stats ∧
    (runStep skip isE s i).state.lastWritten = s.lastWritten ∧
    (i.inShutdown = true → ∃ s', runStep skip isE s i =
      StepResult.stopped s' (runStep skip isE s i).events) ∧
    (i.inShutdown = false → ∃ s', runStep skip isE s i =
      StepResult.cont s' (runStep skip isE s i).events) ∧
    (∀ ins, i.inShutdown = true →
      (run skip isE s (i :: ins)).outcome = RunOutcome.stopped ∧
      (run skip isE s (i :: ins)).trace = (runStep skip isE s i).events) := by
  obtain ⟨batch, exh, sh, act, oa, oas, ca, cas, dur⟩ := i
  subst hb
  cases hsh : sh with
  | true =>
    refine ⟨?_, rfl, rfl, fun _ => ⟨_, rfl⟩, fun hc => Bool.noConfusion hc, ?_⟩
    · intro e he
      simp only [runStep, processBatch, if_true, StepResult.events] at he
      split at he
      · split at he
        · simp only [List.mem_singleton] at he; subst he; rfl
        · simp only [List.mem_singleton] at he; subst he; rfl
      · simp at he
    · intro ins _
      constructor <;> rfl
  | false =>
    refine ⟨?_, rfl, rfl, fun hc => Bool.noConfusion hc, fun _ => ⟨_, rfl⟩,
      fun ins hc => Bool.noConfusion hc⟩
    intro e he
    simp only [runStep, processBatch, Bool.false_eq_true, if_false,
      StepResult.events] at he
    split at he
    · split at he
      · simp only [List.mem_singleton] at he; subst he; rfl
      · simp only [List.mem_singleton] at he; subst he; rfl
    · simp at he

/-- Witness for C7: an empty exhausted batch while shutting down stops the
loop with only the enter-drain-mode signal in its trace. -/
theorem emptyBatch_iteration_witness :
    ((⟨[], true, true, false, ⟨true, none⟩, [], none, [], 0⟩ : IterInput).batch = []) ∧
    (run false false ⟨false, ⟨⟨0, 0⟩, 0⟩, ⟨0, 0, 0⟩⟩
      [⟨[], true, true, false, ⟨true, none⟩, [], none, [], 0⟩]).outcome =
      RunOutcome.stopped :=
  ⟨rfl,
    ((emptyBatch_iteration false false ⟨false, ⟨⟨0, 0⟩, 0⟩, ⟨0, 0, 0⟩⟩
      ⟨[], true, true, false, ⟨true, none⟩, [], none, [], 0⟩ rfl).2.2.2.2.2 []
      rfl).1⟩

/-- C3: finalization performs its three effects in strict order — the
visibility registration with the storage engine (with ordered commit)
first, then the last-written advance, and only then the journal-flush
trigger; the trigger is emitted exactly when the flush flag is set, the
flag the main loop passes is exactly the storage engine being
non-ephemeral, and no batch-write event can be the trigger, so within an
iteration the trigger happens only in finalization on durable storage. -/
theorem finalizeOplogBatch_ordering (t : OpTimeAndWallTime) (fj isE : Bool) :
    (finalizeOplogBatch t fj)[0]? =
      some (Event.oplogDiskLocRegister t.opTime.ts true) ∧
    (finalizeOplogBatch t fj)[1]? = some (Event.setLastWrittenForward t) ∧
    ((Event.triggerJournalFlush ∈ finalizeOplogBatch t fj) ↔ fj = true) ∧
    (fj = true → (finalizeOplogBatch t fj)[2]? = some Event.triggerJournalFlush) ∧
    runFlushJournal isE = !isE ∧
    (Event.triggerJournalFlush ∈ finalizeOplogBatch t (runFlushJournal isE) →
      isE = false) ∧
    (∀ (skip act : Bool) (oa : OplogAttempt) (oas : List OplogAttempt)
      (ca : Option ErrorCode) (cas : List (Option ErrorCode)) (dur : Nat)
      (ops : List Record),
      Event.triggerJournalFlush ∉ (writeOplogBatch skip act oa oas ca cas dur ops).1) := by
  refine ⟨rfl, by simp [finalizeOplogBatch], ?_, ?_, rfl, ?_, writeOplogBatch_no_trigger⟩
  · cases fj <;> simp [finalizeOplogBatch]
  · intro h; subst h; simp [finalizeOplogBatch]
  · intro hmem
    cases isE with
    | false => rfl
    | true => simp [finalizeOplogBatch, runFlushJournal] at hmem

/-- Witness for C3 at a concrete optime with the flush flag set. -/
theorem finalizeOplogBatch_ordering_witness :
    (finalizeOplogBatch ⟨⟨11, 1⟩, 101⟩ true)[0]? =
      some (Event.oplogDiskLocRegister 11 true) ∧
    (finalizeOplogBatch ⟨⟨11, 1⟩, 101⟩ true)[2]? = some Event.triggerJournalFlush :=
  ⟨(finalizeOplogBatch_ordering ⟨⟨11, 1⟩, 101⟩ true false).1,
   (finalizeOplogBatch_ordering ⟨⟨11, 1⟩, 101⟩ true false).2.2.2.1 rfl⟩

/-- C4: if the batch write fails with the distinguished shutdown
condition, the main loop terminates silently (graceful stop, and the whole
run ends there); any other write failure halts the process with the fatal
assert carrying the failure id; and an iteration continues only when the
write succeeded, so the loop never continues past a failed write. -/
theorem writeFailure_handling (skip isE exh sh act : Bool) (oa : OplogAttempt)
    (oas : List OplogAttempt) (ca : Option ErrorCode) (cas : List (Option ErrorCode))
    (dur : Nat) (op : Record) (rest : List Record) (s : LoopState) :
    ((writeOplogBatch skip act oa oas ca cas dur (op :: rest)).2 =
        WbResult.shutdownStop →
      (∃ s', runStep skip isE s ⟨op :: rest, exh, sh, act, oa, oas, ca, cas, dur⟩ =
        StepResult.stopped s'
          (runStep skip isE s ⟨op :: rest, exh, sh, act, oa, oas, ca, cas, dur⟩).events) ∧
      ∀ ins, (run skip isE s
        (⟨op :: rest, exh, sh, act, oa, oas, ca, cas, dur⟩ :: ins)).outcome =
        RunOutcome.stopped) ∧
    (∀ id, (writeOplogBatch skip act oa oas ca cas dur (op :: rest)).2 =
        WbResult.fatalAssert id →
      (∃ s', runStep skip isE s ⟨op :: rest, exh, sh, act, oa, oas, ca, cas, dur⟩ =
        StepResult.halted s'
          (runStep skip isE s ⟨op :: rest, exh, sh, act, oa, oas, ca, cas, dur⟩).events
          id) ∧
      ∀ ins, (run skip isE s
        (⟨op :: rest, exh, sh, act, oa, oas, ca, cas, dur⟩ :: ins)).outcome =
        RunOutcome.halted id) ∧
    (∀ s' evs, runStep skip isE s ⟨op :: rest, exh, sh, act, oa, oas, ca, cas, dur⟩ =
        StepResult.cont s' evs →
      ∃ t, (writeOplogBatch skip act oa oas ca cas dur (op :: rest)).2 =
        WbResult.ok t) := by
  refine ⟨?_, ?_, ?_⟩
  · intro hw
    constructor
    · simp only [runStep, processBatch, hw, StepResult.events]
      exact ⟨_, rfl⟩
    · intro ins
      simp only [run, runStep, processBatch, hw]
  · intro id hw
    constructor
    · simp only [runStep, processBatch, hw, StepResult.events]
      exact ⟨_, rfl⟩
    · intro ins
      simp only [run, runStep, processBatch, hw]
  · intro s' evs heq
    cases hw : (writeOplogBatch skip act oa oas ca cas dur (op :: rest)).2 with
    | ok t => exact ⟨t, rfl⟩
    | shutdownStop =>
      simp only [runStep, processBatch, hw] at heq
      exact StepResult.noConfusion heq
    | fatalAssert id =>
      simp only [runStep, processBatch, hw] at heq
      exact StepResult.noConfusion heq

/-- Witness for C4: a shutdown-interrupted write on a one-record batch
makes the run stop gracefully. -/
theorem writeFailure_handling_witness :
    (writeOplogBatch false false ⟨true, some ErrorCode.InterruptedAtShutdown⟩ []
      none [] 0 [⟨⟨10, 1⟩, 100⟩]).2 = WbResult.shutdownStop ∧
    (run false false ⟨false, ⟨⟨0, 0⟩, 0⟩, ⟨0, 0, 0⟩⟩
      [⟨[⟨⟨10, 1⟩, 100⟩], false, false, false,
        ⟨true, some ErrorCode.InterruptedAtShutdown⟩, [], none, [], 0⟩]).outcome =
      RunOutcome.stopped :=
  ⟨by decide,
    ((writeFailure_handling false false false false false
      ⟨true, some ErrorCode.InterruptedAtShutdown⟩ [] none [] 0 ⟨⟨10, 1⟩, 100⟩ []
      ⟨false, ⟨⟨0, 0⟩, 0⟩, ⟨0, 0, 0⟩⟩).1 (by decide)).2 []⟩

theorem advance_le (cur v : OpTimeAndWallTime) :
    OpTime.le cur.opTime (setMyLastWrittenOpTimeAndWallTimeForward cur v).opTime := by
  unfold setMyLastWrittenOpTimeAndWallTimeForward
  by_cases h : OpTime.lt cur.opTime v.opTime
  · rw [if_pos h]; exact OpTime.le_of_lt h
  · rw [if_neg h]; exact OpTime.le_refl _

theorem foldl_advance_le (vs : List OpTimeAndWallTime) :
    ∀ cur : OpTimeAndWallTime,
      OpTime.le cur.opTime
        (vs.foldl setMyLastWrittenOpTimeAndWallTimeForward cur).opTime := by
  induction vs with
  | nil => intro cur; exact OpTime.le_refl _
  | cons v vs ih =>
    intro cur
    exact OpTime.le_trans (advance_le cur v)
      (ih (setMyLastWrittenOpTimeAndWallTimeForward cur v))

/-- C6: advancing the last-written optime is monotonic and idempotent: a
single advance never decreases the optime and neither does any sequence of
advances, an advance with a value not strictly greater than the current
one is a no-op, and a second advance with the same value mutates nothing
after the first. -/
theorem lastWritten_advance_monotonic_idempotent (cur v : OpTimeAndWallTime)
    (vs : List OpTimeAndWallTime) :
    OpTime.le cur.opTime (setMyLastWrittenOpTimeAndWallTimeForward cur v).opTime ∧
    (¬ OpTime.lt cur.opTime v.opTime →
      setMyLastWrittenOpTimeAndWallTimeForward cur v = cur) ∧
    setMyLastWrittenOpTimeAndWallTimeForward
      (setMyLastWrittenOpTimeAndWallTimeForward cur v) v =
      setMyLastWrittenOpTimeAndWallTimeForward cur v ∧
    OpTime.le cur.opTime
      (vs.foldl setMyLastWrittenOpTimeAndWallTimeForward cur).opTime := by
  refine ⟨advance_le cur v, ?_, ?_, foldl_advance_le vs cur⟩
  · intro h
    unfold setMyLastWrittenOpTimeAndWallTimeForward
    rw [if_neg h]
  · unfold setMyLastWrittenOpTimeAndWallTimeForward
    by_cases h : OpTime.lt cur.opTime v.opTime
    · rw [if_pos h, if_neg (OpTime.lt_irrefl v.opTime)]
    · rw [if_neg h, if_neg h]

/-- Witness for C6: re-advancing with an older optime is a no-op at a
concrete state. -/
theorem lastWritten_advance_monotonic_idempotent_witness :
    (¬ OpTime.lt (⟨⟨5, 1⟩, 50⟩ : OpTimeAndWallTime).opTime
      (⟨⟨3, 1⟩, 30⟩ : OpTimeAndWallTime).opTime) ∧
    setMyLastWrittenOpTimeAndWallTimeForward ⟨⟨5, 1⟩, 50⟩ ⟨⟨3, 1⟩, 30⟩ =
      ⟨⟨5, 1⟩, 50⟩ :=
  ⟨by decide,
    (lastWritten_advance_monotonic_idempotent ⟨⟨5, 1⟩, 50⟩ ⟨⟨3, 1⟩, 30⟩ []).2.1
      (by decide)⟩

/-- C8: if the oplog collection does not exist at write time, the insert
unit of work fails with the distinguished NamespaceNotFound error and
never reaches its commit; the error is not retryable, passes through the
retry helper unchanged, and the writer treats it as fatal: the batch write
halts with the fassert id 8352101. -/
theorem missingOplogCollection_fatal (st : Option ErrorCode) (n : Nat)
    (oas : List OplogAttempt) (act : Bool) (ca : Option ErrorCode)
    (cas : List (Option ErrorCode)) (dur : Nat) (op : Record)
    (rest : List Record) :
    (insertDocsToOplogCollection false st n).2 = some ErrorCode.NamespaceNotFound ∧
    (∀ m, Event.oplogCommit m ∉ (insertDocsToOplogCollection false st n).1) ∧
    isRetryableError ErrorCode.NamespaceNotFound = false ∧
    (insertBatchAndHandleRetry
      (fun a => insertDocsToOplogCollection a.collExists a.insertStatus n)
      ⟨false, st⟩ oas).2 = some ErrorCode.NamespaceNotFound ∧
    (writeOplogBatch false act ⟨false, st⟩ oas ca cas dur (op :: rest)).2 =
      WbResult.fatalAssert 8352101 := by
  have hfirst : insertDocsToOplogCollection false st n =
      ([], some ErrorCode.NamespaceNotFound) := rfl
  refine ⟨rfl, ?_, rfl, ?_, ?_⟩
  · intro m hm
    simp [insertDocsToOplogCollection] at hm
  · rw [insertBatchAndHandleRetry_first_nonretryable _ ⟨false, st⟩ oas []
      ErrorCode.NamespaceNotFound rfl rfl]
  · have hr : (writeOplogBatchImpl
        (fun a => insertDocsToOplogCollection a.collExists a.insertStatus
          ((op :: rest).length)) ⟨false, st⟩ oas).2 =
        SinkOutcome.fatalAssert 8352101 := by
      show writeOplogBatchImplStatus (insertBatchAndHandleRetry _ _ oas).2 = _
      rw [insertBatchAndHandleRetry_first_nonretryable _ ⟨false, st⟩ oas []
        ErrorCode.NamespaceNotFound rfl rfl]
      rfl
    have hleg : (oplogCollLeg false ((op :: rest).length) ⟨false, st⟩ oas).2 =
        SinkOutcome.fatalAssert 8352101 := by
      simp only [oplogCollLeg, Bool.false_eq_true, if_false, hr]
    rw [writeOplogBatch_eq_oplogFatal false act ⟨false, st⟩ oas ca cas dur op rest
      8352101 hleg]

/-- Witness for C8: a one-record batch against a missing oplog collection
halts fatally. -/
theorem missingOplogCollection_fatal_witness :
    (writeOplogBatch false false ⟨false, none⟩ [] none [] 0
      [⟨⟨10, 1⟩, 100⟩]).2 = WbResult.fatalAssert 8352101 :=
  (missingOplogCollection_fatal none 1 [] false none [] 0 ⟨⟨10, 1⟩, 100⟩ []).2.2.2.2

theorem filter_all_true {α : Type} {p : α → Bool} {l : List α}
    (h : ∀ e ∈ l, p e = true) : l.filter p = l :=
  List.filter_eq_self.mpr (by simpa using h)

theorem filter_all_false {α : Type} {p : α → Bool} {l : List α}
    (h : ∀ e ∈ l, p e = false) : l.filter p = [] :=
  List.filter_eq_nil_iff.mpr (fun e he => by simp [h e he])

theorem writeOplogBatch_ok_legs (skip act : Bool) (oa : OplogAttempt)
    (oas : List OplogAttempt) (ca : Option ErrorCode) (cas : List (Option ErrorCode))
    (dur : Nat) (op : Record) (rest : List Record) (t : OpTime)
    (h : (writeOplogBatch skip act oa oas ca cas dur (op :: rest)).2 = WbResult.ok t) :
    (oplogCollLeg skip (op :: rest).length oa oas).2 = SinkOutcome.ok ∧
    (changeCollLeg act (op :: rest).length ca cas).2 = SinkOutcome.ok := by
  cases h1 : (oplogCollLeg skip (op :: rest).length oa oas).2 with
  | ok =>
    cases h2 : (changeCollLeg act (op :: rest).length ca cas).2 with
    | ok => exact ⟨rfl, rfl⟩
    | shutdownStop =>
      rw [writeOplogBatch_eq_changeShutdown skip act oa oas ca cas dur op rest h1 h2]
        at h
      simp at h
    | fatalAssert id =>
      rw [writeOplogBatch_eq_changeFatal skip act oa oas ca cas dur op rest id h1 h2]
        at h
      simp at h
  | shutdownStop =>
    rw [writeOplogBatch_eq_oplogShutdown skip act oa oas ca cas dur op rest h1] at h
    simp at h
  | fatalAssert id =>
    rw [writeOplogBatch_eq_oplogFatal skip act oa oas ca cas dur op rest id h1] at h
    simp at h

/-- C5: for every batch, when change-collection mode is inactive no
change-collection event occurs at all; among the trace's sink events every
oplog-collection event (including the commit) precedes every
change-collection event (including the insert begin), so the primary
commit happens strictly before the change-collection write begins; and on
a successful write each performed leg ends with its commit followed
immediately by its post-commit observer notification. -/
theorem dualSink_sequencing (skip act : Bool) (oa : OplogAttempt)
    (oas : List OplogAttempt) (ca : Option ErrorCode) (cas : List (Option ErrorCode))
    (dur : Nat) (ops : List Record) :
    (act = false →
      (writeOplogBatch skip act oa oas ca cas dur ops).1.filter Event.isChangeSink
        = []) ∧
    (∃ l1 l2,
      (writeOplogBatch skip act oa oas ca cas dur ops).1.filter
          (fun e => Event.isOplogSink e || Event.isChangeSink e) = l1 ++ l2 ∧
      (∀ e ∈ l1, Event.isOplogSink e = true) ∧
      (∀ e ∈ l2, Event.isChangeSink e = true)) ∧
    (∀ t, (writeOplogBatch skip act oa oas ca cas dur ops).2 = WbResult.ok t →
      skip = false →
      ∃ l, (writeOplogBatch skip act oa oas ca cas dur ops).1.filter
          Event.isOplogSink =
        l ++ [Event.oplogCommit ops.length,
          Event.onWriteOplogCollection ops.length]) ∧
    (∀ t, (writeOplogBatch skip act oa oas ca cas dur ops).2 = WbResult.ok t →
      act = true →
      ∃ l, (writeOplogBatch skip act oa oas ca cas dur ops).1.filter
          Event.isChangeSink =
        l ++ [Event.changeCollCommit ops.length,
          Event.onWriteChangeCollection ops.length]) := by
  cases ops with
  | nil =>
    refine ⟨fun _ => rfl, ⟨[], [], rfl, by simp, by simp⟩, ?_, ?_⟩ <;>
      intro t h <;> simp [writeOplogBatch] at h
  | cons op rest =>
    refine ⟨?_, ?_, ?_, ?_⟩
    · intro hact
      subst hact
      rcases writeOplogBatch_trace_shape skip false oa oas ca cas dur op rest with
        ⟨oEvs, cEvs, tail, htr, ho, hc, htail, hinact⟩
      have hce := hinact rfl
      subst hce
      have hpre : (batchPrelude (op :: rest)).filter Event.isChangeSink = [] :=
        filter_all_false (fun e he => (batchPrelude_kinds _ e he).2.1)
      have hoE : oEvs.filter Event.isChangeSink = [] :=
        filter_all_false (fun e he => oplogSink_not_changeSink (ho e he))
      have htailF : tail.filter Event.isChangeSink = [] :=
        filter_all_false (fun e he => by
          rcases htail with rfl | rfl
          · simp at he
          · simp only [List.mem_singleton] at he; subst he; rfl)
      rw [htr]
      simp only [List.filter_append]
      rw [hpre, hoE, htailF]
      simp
    · rcases writeOplogBatch_trace_shape skip act oa oas ca cas dur op rest with
        ⟨oEvs, cEvs, tail, htr, ho, hc, htail, _⟩
      refine ⟨oEvs, cEvs, ?_, ho, hc⟩
      have hpre : (batchPrelude (op :: rest)).filter
          (fun e => Event.isOplogSink e || Event.isChangeSink e) = [] :=
        filter_all_false (fun e he => by
          have k := batchPrelude_kinds _ e he
          simp [k.1, k.2.1])
      have hoE : oEvs.filter
          (fun e => Event.isOplogSink e || Event.isChangeSink e) = oEvs :=
        filter_all_true (fun e he => by simp [ho e he])
      have hcE : cEvs.filter
          (fun e => Event.isOplogSink e || Event.isChangeSink e) = cEvs :=
        filter_all_true (fun e he => by simp [hc e he])
      have htailF : tail.filter
          (fun e => Event.isOplogSink e || Event.isChangeSink e) = [] :=
        filter_all_false (fun e he => by
          rcases htail with rfl | rfl
          · simp at he
          · simp only [List.mem_singleton] at he; subst he; rfl)
      rw [htr]
      simp only [List.filter_append]
      rw [hpre, hoE, hcE, htailF]
      simp
    · intro t h hskip
      subst hskip
      rcases writeOplogBatch_ok_legs false act oa oas ca cas dur op rest t h with
        ⟨h1, h2⟩
      rcases oplogCollLeg_success_shape (op :: rest).length oa oas h1 with ⟨l, hleg⟩
      refine ⟨l, ?_⟩
      rw [writeOplogBatch_eq_ok false act oa oas ca cas dur op rest h1 h2]
      have hpre : (batchPrelude (op :: rest)).filter Event.isOplogSink = [] :=
        filter_all_false (fun e he => (batchPrelude_kinds _ e he).1)
      have hoE : ((oplogCollLeg false (op :: rest).length oa oas).1).filter
          Event.isOplogSink = (oplogCollLeg false (op :: rest).length oa oas).1 :=
        filter_all_true (oplogCollLeg_events _ _ _ _)
      have hcE : ((changeCollLeg act (op :: rest).length ca cas).1).filter
          Event.isOplogSink = [] :=
        filter_all_false (fun e he => changeSink_not_oplogSink
          (changeCollLeg_events _ _ _ _ e he))
      show (batchPrelude (op :: rest) ++ (oplogCollLeg false (op :: rest).length oa oas).1
          ++ (changeCollLeg act (op :: rest).length ca cas).1
          ++ [Event.timerStop dur]).filter Event.isOplogSink = _
      simp only [List.filter_append]
      rw [hpre, hoE, hcE, hleg]
      simp [Event.isOplogSink]
    · intro t h hact
      subst hact
      rcases writeOplogBatch_ok_legs skip true oa oas ca cas dur op rest t h with
        ⟨h1, h2⟩
      rcases changeCollLeg_success_shape (op :: rest).length ca cas h2 with ⟨l, hleg⟩
      refine ⟨l, ?_⟩
      rw [writeOplogBatch_eq_ok skip true oa oas ca cas dur op rest h1 h2]
      have hpre : (batchPrelude (op :: rest)).filter Event.isChangeSink = [] :=
        filter_all_false (fun e he => (batchPrelude_kinds _ e he).2.1)
      have hoE : ((oplogCollLeg skip (op :: rest).length oa oas).1).filter
          Event.isChangeSink = [] :=
        filter_all_false (fun e he => oplogSink_not_changeSink
          (oplogCollLeg_events _ _ _ _ e he))
      have hcE : ((changeCollLeg true (op :: rest).length ca cas).1).filter
          Event.isChangeSink = (changeCollLeg true (op :: rest).length ca cas).1 :=
        filter_all_true (changeCollLeg_events _ _ _ _)
      show (batchPrelude (op :: rest) ++ (oplogCollLeg skip (op :: rest).length oa oas).1
          ++ (changeCollLeg true (op :: rest).length ca cas).1
          ++ [Event.timerStop dur]).filter Event.isChangeSink = _
      simp only [List.filter_append]
      rw [hpre, hoE, hcE, hleg]
      simp [Event.isChangeSink]

/-- Witness for C5: a successful one-record batch with change-collection
mode active ends each leg with its commit then its observer. -/
theorem dualSink_sequencing_witness :
    (writeOplogBatch false true ⟨true, none⟩ [] none [] 3 [⟨⟨10, 1⟩, 100⟩]).2 =
      WbResult.ok ⟨10, 1⟩ ∧
    (∃ l, (writeOplogBatch false true ⟨true, none⟩ [] none [] 3
        [⟨⟨10, 1⟩, 100⟩]).1.filter Event.isOplogSink =
      l ++ [Event.oplogCommit 1, Event.onWriteOplogCollection 1]) ∧
    (∃ l, (writeOplogBatch false true ⟨true, none⟩ [] none [] 3
        [⟨⟨10, 1⟩, 100⟩]).1.filter Event.isChangeSink =
      l ++ [Event.changeCollCommit 1, Event.onWriteChangeCollection 1]) :=
  ⟨by decide,
    (dualSink_sequencing false true ⟨true, none⟩ [] none [] 3
      [⟨⟨10, 1⟩, 100⟩]).2.2.1 ⟨10, 1⟩ (by decide) rfl,
    (dualSink_sequencing false true ⟨true, none⟩ [] none [] 3
      [⟨⟨10, 1⟩, 100⟩]).2.2.2 ⟨10, 1⟩ (by decide) rfl⟩

/-- C9: for every successfully written batch of n records the stats record
counter increases by exactly n, the batch counter by exactly 1 and the
aggregated batch timing by the batch's duration, and the stats report
exposes exactly the record-count total, the batch count and the aggregated
batch timing. -/
theorem stats_per_successful_batch (skip act : Bool) (oa : OplogAttempt)
    (oas : List OplogAttempt) (ca : Option ErrorCode) (cas : List (Option ErrorCode))
    (dur : Nat) (ops : List Record) (s : OplogWriterStats) (t : OpTime)
    (h : (writeOplogBatch skip act oa oas ca cas dur ops).2 = WbResult.ok t) :
    applyStats s (writeOplogBatch skip act oa oas ca cas dur ops).1 =
      ⟨s.batchSize + ops.length, s.batchesNum + 1, s.batchesTotalMillis + dur⟩ ∧
    (applyStats s (writeOplogBatch skip act oa oas ca cas dur ops).1).getReport =
      ⟨s.batchSize + ops.length, ⟨s.batchesNum + 1, s.batchesTotalMillis + dur⟩⟩ ∧
    (∀ s' : OplogWriterStats,
      s'.getReport = ⟨s'.batchSize, ⟨s'.batchesNum, s'.batchesTotalMillis⟩⟩) := by
  cases ops with
  | nil => simp [writeOplogBatch] at h
  | cons op rest =>
    rcases writeOplogBatch_ok_legs skip act oa oas ca cas dur op rest t h with ⟨h1, h2⟩
    have hmain : applyStats s
        (writeOplogBatch skip act oa oas ca cas dur (op :: rest)).1 =
        ⟨s.batchSize + (op :: rest).length, s.batchesNum + 1,
          s.batchesTotalMillis + dur⟩ := by
      rw [writeOplogBatch_eq_ok skip act oa oas ca cas dur op rest h1 h2]
      show applyStats s (batchPrelude (op :: rest) ++
        (oplogCollLeg skip (op :: rest).length oa oas).1 ++
        (changeCollLeg act (op :: rest).length ca cas).1 ++
        [Event.timerStop dur]) = _
      rw [applyStats_append, applyStats_append, applyStats_append,
        applyStats_batchPrelude,
        applyStats_neutral _ _
          (fun e he => oplogSink_not_stats (oplogCollLeg_events _ _ _ _ e he)),
        applyStats_neutral _ _
          (fun e he => changeSink_not_stats (changeCollLeg_events _ _ _ _ e he))]
      rfl
    exact ⟨hmain, by rw [hmain]; rfl, fun s' => rfl⟩

/-- Witness for C9: the spec's concrete scenario — a two-record batch with
change-collection mode inactive bumps the record counter by 2 and the
batch counter by 1. -/
theorem stats_per_successful_batch_witness :
    (writeOplogBatch false false ⟨true, none⟩ [] none [] 7
      [⟨⟨10, 1⟩, 100⟩, ⟨⟨11, 1⟩, 101⟩]).2 = WbResult.ok ⟨11, 1⟩ ∧
    applyStats ⟨0, 0, 0⟩ (writeOplogBatch false false ⟨true, none⟩ [] none [] 7
      [⟨⟨10, 1⟩, 100⟩, ⟨⟨11, 1⟩, 101⟩]).1 = ⟨0 + 2, 0 + 1, 0 + 7⟩ :=
  ⟨by decide,
    (stats_per_successful_batch false false ⟨true, none⟩ [] none [] 7
      [⟨⟨10, 1⟩, 100⟩, ⟨⟨11, 1⟩, 101⟩] ⟨0, 0, 0⟩ ⟨11, 1⟩ (by decide)).1⟩

/-- C10: the record-counter increment and the batch-timer start are the
first two events of every batch write, before any record parse or insert
attempt; consequently the record counter has already advanced by the batch
size even when the write subsequently fails — the stats update is not
atomic with the write's success. -/
theorem stats_incremented_upfront (skip act : Bool) (oa : OplogAttempt)
    (oas : List OplogAttempt) (ca : Option ErrorCode) (cas : List (Option ErrorCode))
    (dur : Nat) (ops : List Record) (s : OplogWriterStats) (hne : ops ≠ []) :
    (writeOplogBatch skip act oa oas ca cas dur ops).1[0]? =
      some (Event.incrementBatchSize ops.length) ∧
    (writeOplogBatch skip act oa oas ca cas dur ops).1[1]? = some Event.timerStart ∧
    (applyStats s (writeOplogBatch skip act oa oas ca cas dur ops).1).batchSize =
      s.batchSize + ops.length := by
  cases ops with
  | nil => exact absurd rfl hne
  | cons op rest =>
    rcases writeOplogBatch_trace_shape skip act oa oas ca cas dur op rest with
      ⟨oEvs, cEvs, tail, htr, ho, hc, htail, _⟩
    refine ⟨?_, ?_, ?_⟩
    · rw [htr]; rfl
    · rw [htr]; rfl
    · rw [htr, applyStats_append, applyStats_append, applyStats_append,
        applyStats_batchPrelude,
        applyStats_neutral _ _ (fun e he => oplogSink_not_stats (ho e he)),
        applyStats_neutral _ _ (fun e he => changeSink_not_stats (hc e he))]
      rcases htail with rfl | rfl <;> rfl

/-- Witness for C10: a two-record batch whose oplog-collection write fails
fatally (missing collection) still advances the record counter by 2. -/
theorem stats_incremented_upfront_witness :
    (([⟨⟨10, 1⟩, 100⟩, ⟨⟨11, 1⟩, 101⟩] : List Record) ≠ []) ∧
    (writeOplogBatch false false ⟨false, none⟩ [] none [] 7
      [⟨⟨10, 1⟩, 100⟩, ⟨⟨11, 1⟩, 101⟩]).2 = WbResult.fatalAssert 8352101 ∧
    (applyStats ⟨0, 0, 0⟩ (writeOplogBatch false false ⟨false, none⟩ [] none [] 7
      [⟨⟨10, 1⟩, 100⟩, ⟨⟨11, 1⟩, 101⟩]).1).batchSize = 0 + 2 :=
  ⟨by decide, by decide,
    (stats_incremented_upfront false false ⟨false, none⟩ [] none [] 7
      [⟨⟨10, 1⟩, 100⟩, ⟨⟨11, 1⟩, 101⟩] ⟨0, 0, 0⟩ (by decide)).2.2⟩

end OplogWriter
